import Mathlib

/-!
Verification of the derived-state computation layer of a Redux Toolkit
proof-of-concept application. The definitions below are shallow embeddings of
the selector, reducer and base-query functions found in
`src/features/selectors.js`, `src/features/todoSlice.js`,
`src/features/apiSlice.js` and the user slice, with JavaScript numbers,
strings and arrays modelled by `Int`/`Nat`, `String` and `List`.
-/

set_option maxRecDepth 4000

/-- Embeds JavaScript `String.prototype.includes` character matching:
`leadMatch needle hay` is true when `needle` occurs at the head of `hay`. -/
def leadMatch : List Char → List Char → Bool
  | [], _ => true
  | _ :: _, [] => false
  | a :: as1, b :: bs => a = b && leadMatch as1 bs

/-- True when `needle` occurs contiguously anywhere inside `hay`. -/
def hasSubList (needle : List Char) : List Char → Bool
  | [] => needle.isEmpty
  | c :: rest => leadMatch needle (c :: rest) || hasSubList needle rest

/-- Embeds JavaScript `hay.includes(sub)`: contiguous substring containment. -/
def strIncludes (hay sub : String) : Bool :=
  hasSubList sub.data hay.data

/-- Embeds JavaScript `String.prototype.toLowerCase` character-wise (the
posts hold ASCII text, where per-character lowering coincides with the
full Unicode mapping). -/
def lowerChars (cs : List Char) : List Char :=
  cs.map Char.toLower

/-- Lexicographic `<` on character sequences by code point, embedding the
JavaScript `<` relational comparison of two strings (code-unit
lexicographic; identical on the code points that occur here). -/
def charListLt : List Char → List Char → Bool
  | [], [] => false
  | [], _ :: _ => true
  | _ :: _, [] => false
  | a :: as1, b :: bs =>
    if a < b then true else if b < a then false else charListLt as1 bs

/-- A post record as stored in `state.posts.posts` (jsonplaceholder shape). -/
structure Post where
  id : Nat
  title : String
  body : String
  userId : Nat
deriving DecidableEq, Repr

/-- The filter specification `state.posts.filters` read by
`selectFilteredPosts`: free-text search, category, sort key, sort direction. -/
structure PostFilters where
  search : String
  category : String
  sortBy : String
  sortOrder : String
deriving DecidableEq, Repr

/-- The search predicate applied inside `selectFilteredPosts`
(`selectors.js` lines 178-181): the lowercased title or body contains the
lowercased search term. -/
def postMatchesSearch (search : String) (p : Post) : Bool :=
  hasSubList (lowerChars search.data) (lowerChars p.title.data) ||
    hasSubList (lowerChars search.data) (lowerChars p.body.data)

/-- The search-filter stage of `selectFilteredPosts` (`selectors.js` lines
176-182): a JavaScript-falsy (empty) `filters.search` skips the filter. -/
def searchStep (filters : PostFilters) (posts : List Post) : List Post :=
  if filters.search = "" then posts
  else posts.filter (postMatchesSearch filters.search)

/-- The category stage of `selectFilteredPosts` (`selectors.js` lines
185-188): the branch body is commented out in the source, so the stage is the
identity for every category value. -/
def categoryStep (_filters : PostFilters) (posts : List Post) : List Post :=
  posts

/-- A sort-key value produced by the comparator of `selectFilteredPosts`:
a lowercased title string, or a number (`userId` for 'author', the numeric
timestamp `new Date(id)` for 'date', which compares exactly as `id`). -/
inductive SortVal where
  | str (s : List Char)
  | num (n : Nat)
deriving DecidableEq, Repr

/-- The sort-key extraction of `selectFilteredPosts` (`selectors.js` lines
194-208): 'title' takes the lowercased title, 'author' the userId, and the
default ('date') branch wraps the numeric id in `new Date`, whose relational
comparison is numeric comparison of the ids. -/
def sortValOf (sortBy : String) (p : Post) : SortVal :=
  if sortBy = "title" then .str (lowerChars p.title.data)
  else if sortBy = "author" then .num p.userId
  else .num p.id

/-- JavaScript `aValue > bValue` for two sort-key values of the same kind
(string comparison is lexicographic, numbers numeric); the mixed cases never
arise because both values come from the same `sortBy` branch. -/
def svGt : SortVal → SortVal → Bool
  | .str a, .str b => charListLt b a
  | .num a, .num b => decide (b < a)
  | _, _ => false

/-- JavaScript `aValue < bValue` for two sort-key values of the same kind. -/
def svLt : SortVal → SortVal → Bool
  | .str a, .str b => charListLt a b
  | .num a, .num b => decide (a < b)
  | _, _ => false

/-- The comparator passed to `filtered.sort` by `selectFilteredPosts`
(`selectors.js` lines 191-215): ascending order returns
`aValue > bValue ? 1 : -1`, otherwise `aValue < bValue ? 1 : -1`.
Note it never returns 0. -/
def postCompare (filters : PostFilters) (a b : Post) : Int :=
  let av := sortValOf filters.sortBy a
  let bv := sortValOf filters.sortBy b
  if filters.sortOrder = "asc" then (if svGt av bv then 1 else -1)
  else (if svLt av bv then 1 else -1)

/-- Insertion step of the sort model: place `a` before the first element it
does not compare after. -/
def insertByCompare (cmp : Post → Post → Int) (a : Post) :
    List Post → List Post
  | [] => [a]
  | b :: bs =>
    if cmp a b ≤ 0 then a :: b :: bs else b :: insertByCompare cmp a bs

/-- Model of `Array.prototype.sort` with comparator `cmp`. On inputs whose
comparator is a consistent comparison function (in particular, pairwise
distinct sort keys under `postCompare`) every conforming ECMAScript
implementation produces the unique comparator-sorted order, which this
insertion sort computes. -/
def sortByCompare (cmp : Post → Post → Int) : List Post → List Post
  | [] => []
  | a :: rest => insertByCompare cmp a (sortByCompare cmp rest)

/-- The compute function of `selectFilteredPosts` (`selectors.js` lines
170-219): copy the posts, apply the search filter, the (identity) category
filter, then sort with `postCompare`. -/
def selectFilteredPostsCompute (posts : List Post) (filters : PostFilters) :
    List Post :=
  sortByCompare (postCompare filters) (categoryStep filters (searchStep filters posts))

/-- The pagination state `state.posts.pagination` read by
`selectPaginatedPosts`; JavaScript numbers modelled as integers. -/
structure Pagination where
  currentPage : Int
  itemsPerPage : Int
deriving DecidableEq, Repr

/-- Embeds `Array.prototype.slice(start, stop)` (ECMAScript 23.1.3.28):
negative indices count from the end, clamped to `[0, length]`. -/
def jsSlice (l : List Post) (start stop : Int) : List Post :=
  let len : Int := l.length
  let s := if start < 0 then max (len + start) 0 else min start len
  let e := if stop < 0 then max (len + stop) 0 else min stop len
  (l.take e.toNat).drop s.toNat

/-- The compute function of `selectPaginatedPosts` (`selectors.js` lines
221-230): `startIndex = (currentPage - 1) * itemsPerPage`,
`endIndex = startIndex + itemsPerPage`, then `filtered.slice(start, end)`. -/
def selectPaginatedPostsCompute (filtered : List Post) (pg : Pagination) :
    List Post :=
  let startIndex := (pg.currentPage - 1) * pg.itemsPerPage
  let endIndex := startIndex + pg.itemsPerPage
  jsSlice filtered startIndex endIndex

/-- A todo record as stored in `state.todos.list` (`todoSlice.js`). -/
structure Todo where
  id : Nat
  title : String
  completed : Bool
  userId : Nat
deriving DecidableEq, Repr

/-- The `todos` slice state (`todoSlice.js` lines 16-20). -/
structure TodoState where
  list : List Todo
  status : String
  error : Option String
deriving DecidableEq, Repr

/-- The `toggleTodo` reducer (`todoSlice.js` lines 34-39): find the first todo
with the given id and flip its `completed` flag; no match is a no-op. -/
def toggleTodo (i : Nat) : List Todo → List Todo
  | [] => []
  | t :: ts =>
    if t.id = i then { t with completed := !t.completed } :: ts
    else t :: toggleTodo i ts

/-- JavaScript `p || d` for a possibly-absent string payload: an absent or
empty (falsy) payload yields the default. -/
def jsOrDefault (p : Option String) (d : String) : String :=
  match p with
  | some s => if s = "" then d else s
  | none => d

/-- The `fetchTodos.rejected` case reducer (`todoSlice.js` lines 54-57):
`status = 'failed'`, `error = action.payload || 'Failed to fetch todos'`. -/
def fetchTodosRejected (s : TodoState) (payload : Option String) : TodoState :=
  { s with
    status := "failed"
    error := some (jsOrDefault payload "Failed to fetch todos") }

/-- `selectTodosCount` (`selectors.js` lines 35-38): length of the list. -/
def selectTodosCount (todos : List Todo) : Nat :=
  todos.length

/-- `selectCompletedTodosCount` (`selectors.js` lines 25-28, 40-43): number of
completed todos. -/
def selectCompletedTodosCount (todos : List Todo) : Nat :=
  (todos.filter (fun t => t.completed)).length

/-- `Math.round` on the exact rational `(completed / total) * 100`, i.e.
rounding half away from zero for nonnegative input: `⌊x + 1/2⌋` computed as
`(200 * completed + total) / (2 * total)` in integer arithmetic. -/
def roundPercentage (completed total : Nat) : Nat :=
  (200 * completed + total) / (2 * total)

/-- The compute function of `selectTodosCompletionPercentage` (`selectors.js`
lines 50-53): `total > 0 ? Math.round((completed / total) * 100) : 0`, with
the floating-point division and `Math.round` modelled exactly over ℚ. -/
def selectTodosCompletionPercentage (todos : List Todo) : Nat :=
  let total := selectTodosCount todos
  let completed := selectCompletedTodosCount todos
  if total > 0 then roundPercentage completed total else 0

/-- The error attached to a failed RTK Query base-query result: a transient
transport failure (`status: 'FETCH_ERROR'`), an application-level HTTP status
(non-2xx response), or another error kind (parsing, timeout, custom). -/
inductive QueryError where
  | fetchError
  | httpStatus (n : Nat)
  | other (s : String)
deriving DecidableEq, Repr

/-- The value produced by one invocation of `baseQuery` in `apiSlice.js`:
either a successful payload or an error. -/
inductive QueryResult where
  | ok (payload : String)
  | err (e : QueryError)
deriving DecidableEq, Repr

/-- The retry condition of `baseQueryWithRetry` (`apiSlice.js` line 28):
`result.error && result.error.status === 'FETCH_ERROR'`. -/
def isTransientFailure : QueryResult → Bool
  | .err .fetchError => true
  | _ => false

/-- `baseQueryWithRetry` (`apiSlice.js` lines 24-34), with the underlying
`baseQuery` modelled as a function from attempt index to result. Returns the
final result together with the number of `baseQuery` invocations. -/
def baseQueryWithRetry (baseQuery : Nat → QueryResult) : QueryResult × Nat :=
  let r0 := baseQuery 0
  if isTransientFailure r0 then (baseQuery 1, 2) else (r0, 1)

/-- The `user` slice state (the user slice, lines 72-80); `userData` is an
opaque serialized user object. -/
structure UserState where
  userData : Option String
  token : Option String
  isAuthenticated : Bool
  isLoading : Bool
  error : Option String
  loginAttempts : Nat
  lastLoginTime : Option String
deriving DecidableEq, Repr

/-- The `fetchUserProfile.rejected` case reducer (user slice lines 151-160):
`isLoading = false`, `error = action.payload`, and when
`action.payload.includes('token')` the user is forced logged out. -/
def fetchUserProfileRejected (s : UserState) (payload : String) : UserState :=
  let base := { s with isLoading := false, error := some payload }
  if strIncludes payload "token" then
    { base with isAuthenticated := false, userData := none, token := none }
  else base

/-- Modelled from the spec: the memoization state of a `createSelector`
derivation. `createSelector` is provided by the external reselect library
(via `@reduxjs/toolkit`), whose implementation is not part of this
repository; this model follows the spec's Derivation Engine contract
(§4.1): the last input tuple, the cached result carrying an object-identity
token, a fresh-token counter, and the number of compute-function
invocations. -/
structure MemoSelector (I R : Type) where
  lastInput : Option I
  lastResult : Option (R × Nat)
  gen : Nat
  calls : Nat

/-- Modelled from the spec: one read of a `createSelector` derivation. If the
input tuple equals the previous one, the cached result (same value, same
identity token) is returned and the compute function is not invoked;
otherwise the compute function runs once, and its result is cached under a
fresh identity token. -/
def MemoSelector.read {I R : Type} [DecidableEq I] (computeFn : I → R)
    (s : MemoSelector I R) (input : I) : (R × Nat) × MemoSelector I R :=
  match s.lastInput, s.lastResult with
  | some i, some r =>
    if input = i then (r, s)
    else
      let v := computeFn input
      ((v, s.gen),
        { lastInput := some input, lastResult := some (v, s.gen),
          gen := s.gen + 1, calls := s.calls + 1 })
  | _, _ =>
    let v := computeFn input
    ((v, s.gen),
      { lastInput := some input, lastResult := some (v, s.gen),
        gen := s.gen + 1, calls := s.calls + 1 })

/-- C6: reducing the rejected case of the asynchronous fetch leaves the todo
record collection `state.todos.list` value-equal to its pre-operation value;
only `status` and `error` change (to 'failed' and the payload, with the
JavaScript `||` default). -/
theorem fetchTodosRejected_frame (s : TodoState) (payload : Option String) :
    (fetchTodosRejected s payload).list = s.list ∧
    (fetchTodosRejected s payload).status = "failed" ∧
    (fetchTodosRejected s payload).error =
      some (jsOrDefault payload "Failed to fetch todos") :=
  ⟨rfl, rfl, rfl⟩

/-- C7: `baseQueryWithRetry` invokes the underlying loader exactly twice when
the first attempt fails with error status 'FETCH_ERROR', and exactly once in
every other case; an application-level non-2xx response never satisfies the
retry condition; the final attempt's result is returned. -/
theorem baseQueryWithRetry_attempts (baseQuery : Nat → QueryResult) :
    ((baseQueryWithRetry baseQuery).2 =
      if isTransientFailure (baseQuery 0) then 2 else 1) ∧
    ((baseQueryWithRetry baseQuery).1 =
      if isTransientFailure (baseQuery 0) then baseQuery 1 else baseQuery 0) ∧
    (∀ n : Nat, isTransientFailure (.err (.httpStatus n)) = false) := by
  unfold baseQueryWithRetry
  refine ⟨?_, ?_, fun n => rfl⟩ <;> by_cases h : isTransientFailure (baseQuery 0) <;>
    simp [h]

/-- C8: when `fetchUserProfile` is rejected, the user is forced logged out
(`isAuthenticated := false`, `userData` and `token` cleared) exactly when the
rejection payload contains the substring "token"; otherwise only `isLoading`
and `error` change. -/
theorem fetchUserProfileRejected_spec (s : UserState) (p : String) :
    (strIncludes p "token" = true →
      fetchUserProfileRejected s p =
        { s with isLoading := false, error := some p,
                 isAuthenticated := false, userData := none, token := none }) ∧
    (strIncludes p "token" = false →
      fetchUserProfileRejected s p =
        { s with isLoading := false, error := some p }) := by
  unfold fetchUserProfileRejected
  constructor <;> intro h <;> simp [h]

/-- Witness for C8: a concrete state and the payload "No authentication
token" (which contains "token") trigger the forced logout; the payload
"Request failed" (which does not) leaves the authentication fields intact. -/
theorem fetchUserProfileRejected_spec_witness :
    strIncludes "No authentication token" "token" = true ∧
    fetchUserProfileRejected
        ⟨some "john", some "tok1", true, true, none, 0, none⟩
        "No authentication token" =
      ⟨none, none, false, false, some "No authentication token", 0, none⟩ ∧
    strIncludes "Request failed" "token" = false ∧
    fetchUserProfileRejected
        ⟨some "john", some "tok1", true, true, none, 0, none⟩
        "Request failed" =
      ⟨some "john", some "tok1", true, false, some "Request failed", 0, none⟩ := by
  refine ⟨by decide, ?_, by decide, ?_⟩
  · have h := (fetchUserProfileRejected_spec
      ⟨some "john", some "tok1", true, true, none, 0, none⟩
      "No authentication token").1 (by decide)
    rw [h]
  · have h := (fetchUserProfileRejected_spec
      ⟨some "john", some "tok1", true, true, none, 0, none⟩
      "Request failed").2 (by decide)
    rw [h]

/-- C10: the derived completion percentage is at most 100 for every todo
list (it is a natural number, hence at least 0), and equals 0 on the empty
list. -/
theorem selectTodosCompletionPercentage_bounds :
    selectTodosCompletionPercentage [] = 0 ∧
    ∀ todos : List Todo, selectTodosCompletionPercentage todos ≤ 100 := by
  constructor
  · rfl
  · intro todos
    unfold selectTodosCompletionPercentage roundPercentage
      selectTodosCount selectCompletedTodosCount
    have hle : (todos.filter (fun t => t.completed)).length ≤ todos.length :=
      List.length_filter_le _ _
    by_cases h : todos.length > 0
    · simp only [if_pos h]
      have h2 : (0:Nat) < 2 * todos.length := by omega
      have h3 := (Nat.div_lt_iff_lt_mul h2).mpr
        (show 200 * (todos.filter (fun t => t.completed)).length + todos.length <
          101 * (2 * todos.length) by omega)
      omega
    · simp [h]

/-- C5: for the spec-modelled memoized derivation, a second read with an
unchanged input returns the identical cached result (same value and same
object-identity token), leaves the selector state unchanged, and does not
re-invoke the compute function (the invocation count is unchanged). -/
theorem memoSelector_cached_read {I R : Type} [DecidableEq I]
    (computeFn : I → R) (s : MemoSelector I R) (input : I) :
    (((s.read computeFn input).2).read computeFn input).1 =
      (s.read computeFn input).1 ∧
    (((s.read computeFn input).2).read computeFn input).2 =
      (s.read computeFn input).2 ∧
    ((((s.read computeFn input).2).read computeFn input).2).calls =
      ((s.read computeFn input).2).calls := by
  have key : ((s.read computeFn input).2).read computeFn input =
      ((s.read computeFn input).1, (s.read computeFn input).2) := by
    rcases s with ⟨li, lr, g, cl⟩
    rcases li with _ | i <;> rcases lr with _ | r
    · simp [MemoSelector.read]
    · simp [MemoSelector.read]
    · simp [MemoSelector.read]
    · by_cases h : input = i <;> simp [MemoSelector.read, h]
  rw [key]
  exact ⟨rfl, rfl, rfl⟩

/-- Toggling the same id twice restores the original list. -/
theorem toggleTodo_toggleTodo (i : Nat) (l : List Todo) :
    toggleTodo i (toggleTodo i l) = l := by
  induction l with
  | nil => rfl
  | cons t ts ih =>
    by_cases h : t.id = i
    · rcases t with ⟨tid, ttl, tc, tu⟩
      subst h
      simp [toggleTodo, Bool.not_not]
    · simp [toggleTodo, h, ih]

/-- Toggling an id not present in the list is a no-op. -/
theorem toggleTodo_not_mem (i : Nat) (l : List Todo)
    (h : ∀ t ∈ l, t.id ≠ i) : toggleTodo i l = l := by
  induction l with
  | nil => rfl
  | cons t ts ih =>
    have h1 : t.id ≠ i := h t (by simp)
    simp [toggleTodo, h1, ih (fun x hx => h x (by simp [hx]))]

/-- Toggling never changes the id, title or userId of any element. -/
theorem toggleTodo_map_frame (i : Nat) (l : List Todo) :
    (toggleTodo i l).map (fun t => (t.id, t.title, t.userId)) =
      l.map (fun t => (t.id, t.title, t.userId)) := by
  induction l with
  | nil => rfl
  | cons t ts ih => by_cases h : t.id = i <;> simp [toggleTodo, h, ih]

/-- A pair drawn from the zip of a list with itself has equal components. -/
theorem mem_zip_self {α : Type} (l : List α) (p : α × α)
    (hp : p ∈ l.zip l) : p.1 = p.2 := by
  induction l with
  | nil => simp at hp
  | cons a as ih =>
    rw [List.zip_cons_cons] at hp
    rcases List.mem_cons.mp hp with h | h
    · simp [h]
    · exact ih h

/-- Any position whose completed flag changed under a toggle holds the
targeted id. -/
theorem toggleTodo_completed_frame (i : Nat) (l : List Todo)
    (p : Todo × Todo) (hp : p ∈ (toggleTodo i l).zip l)
    (hne : p.1.completed ≠ p.2.completed) : p.2.id = i := by
  induction l with
  | nil => simp [toggleTodo] at hp
  | cons t ts ih =>
    by_cases h : t.id = i
    · rw [show toggleTodo i (t :: ts) = { t with completed := !t.completed } :: ts
        from by simp [toggleTodo, h], List.zip_cons_cons] at hp
      rcases List.mem_cons.mp hp with h2 | h2
      · rw [h2]
        exact h
      · exact absurd (congrArg Todo.completed (mem_zip_self ts p h2)) hne
    · rw [show toggleTodo i (t :: ts) = t :: toggleTodo i ts
        from by simp [toggleTodo, h], List.zip_cons_cons] at hp
      rcases List.mem_cons.mp hp with h2 | h2
      · exact absurd (by rw [h2]) hne
      · exact ih h2

/-- C9: `toggleTodo` applied twice with the same id restores the list; an id
not present in the list makes it a no-op; and each application changes only
the completed flag of a todo carrying the toggled id (ids, titles and userIds
are untouched, and any element whose completed flag changed has the toggled
id). -/
theorem toggleTodo_spec (i : Nat) (l : List Todo) :
    toggleTodo i (toggleTodo i l) = l ∧
    ((∀ t ∈ l, t.id ≠ i) → toggleTodo i l = l) ∧
    (toggleTodo i l).map (fun t => (t.id, t.title, t.userId)) =
      l.map (fun t => (t.id, t.title, t.userId)) ∧
    (∀ p ∈ (toggleTodo i l).zip l,
      p.1.completed ≠ p.2.completed → p.2.id = i) :=
  ⟨toggleTodo_toggleTodo i l, toggleTodo_not_mem i l, toggleTodo_map_frame i l,
    fun p hp hne => toggleTodo_completed_frame i l p hp hne⟩

/-- Witness for C9: on a concrete two-element list, toggling the absent id 5
is a no-op, and under a toggle of id 2 the only pair whose completed flag
changed carries id 2. -/
theorem toggleTodo_spec_witness :
    (∀ t ∈ [(⟨1, "a", false, 1⟩ : Todo), ⟨2, "b", true, 1⟩], t.id ≠ 5) ∧
    toggleTodo 5 [(⟨1, "a", false, 1⟩ : Todo), ⟨2, "b", true, 1⟩] =
      [⟨1, "a", false, 1⟩, ⟨2, "b", true, 1⟩] ∧
    ((⟨2, "b", false, 1⟩ : Todo), (⟨2, "b", true, 1⟩ : Todo)) ∈
      (toggleTodo 2 [(⟨1, "a", false, 1⟩ : Todo), ⟨2, "b", true, 1⟩]).zip
        [(⟨1, "a", false, 1⟩ : Todo), ⟨2, "b", true, 1⟩] ∧
    ((⟨2, "b", true, 1⟩ : Todo)).id = 2 := by
  refine ⟨by decide, ?_, by decide, ?_⟩
  · exact (toggleTodo_spec 5
      [(⟨1, "a", false, 1⟩ : Todo), ⟨2, "b", true, 1⟩]).2.1 (by decide)
  · exact (toggleTodo_spec 2
      [(⟨1, "a", false, 1⟩ : Todo), ⟨2, "b", true, 1⟩]).2.2.2
      ((⟨2, "b", false, 1⟩ : Todo), (⟨2, "b", true, 1⟩ : Todo))
      (by decide) (by decide)

/-- Inserting an element with `insertByCompare` permutes consing it. -/
theorem insertByCompare_perm (cmp : Post → Post → Int) (a : Post)
    (l : List Post) : (insertByCompare cmp a l).Perm (a :: l) := by
  induction l with
  | nil => exact List.Perm.refl _
  | cons b bs ih =>
    by_cases h : cmp a b ≤ 0
    · simp [insertByCompare, h]
    · simp only [insertByCompare, if_neg h]
      exact (ih.cons b).trans (List.Perm.swap a b bs)

/-- The sort stage of `selectFilteredPosts` permutes its input. -/
theorem sortByCompare_perm (cmp : Post → Post → Int) (l : List Post) :
    (sortByCompare cmp l).Perm l := by
  induction l with
  | nil => exact List.Perm.refl _
  | cons a rest ih =>
    exact (insertByCompare_perm cmp a _).trans (ih.cons a)

/-- C1 counterexample: with an empty search term, `selectFilteredPosts` does
not return the input collection unchanged in order — the unconditional sort
stage reorders it (here two distinct titles under ascending title sort). -/
theorem selectFilteredPosts_reorders_on_empty_search :
    (⟨"", "all", "title", "asc"⟩ : PostFilters).search = "" ∧
    selectFilteredPostsCompute
        [⟨2, "Beta", "y", 1⟩, ⟨1, "Alpha", "x", 1⟩]
        ⟨"", "all", "title", "asc"⟩ =
      [⟨1, "Alpha", "x", 1⟩, ⟨2, "Beta", "y", 1⟩] ∧
    selectFilteredPostsCompute
        [⟨2, "Beta", "y", 1⟩, ⟨1, "Alpha", "x", 1⟩]
        ⟨"", "all", "title", "asc"⟩ ≠
      [⟨2, "Beta", "y", 1⟩, ⟨1, "Alpha", "x", 1⟩] := by
  refine ⟨rfl, by decide, by decide⟩

/-- C1 (amended): the search-filter stage of `selectFilteredPosts` is the
identity when the search term is empty, and keeps exactly the posts whose
title or body contain the term case-insensitively when it is not; the
selector's overall output is a permutation (the sorted rearrangement) of that
filtered subset, not necessarily in input order. -/
theorem selectFilteredPosts_search_spec (posts : List Post)
    (filters : PostFilters) :
    (filters.search = "" → searchStep filters posts = posts) ∧
    (filters.search ≠ "" →
      searchStep filters posts =
        posts.filter (postMatchesSearch filters.search)) ∧
    (selectFilteredPostsCompute posts filters).Perm
      (searchStep filters posts) := by
  refine ⟨fun h => by simp [searchStep, h], fun h => by simp [searchStep, h], ?_⟩
  exact sortByCompare_perm _ _

/-- Witness for C1 (amended): on concrete inputs, the empty search term keeps
both posts and the term "alp" keeps exactly the matching post. -/
theorem selectFilteredPosts_search_spec_witness :
    (⟨"", "all", "title", "asc"⟩ : PostFilters).search = "" ∧
    searchStep ⟨"", "all", "title", "asc"⟩
        [⟨1, "Alpha", "x", 1⟩, ⟨2, "Beta", "y", 1⟩] =
      [⟨1, "Alpha", "x", 1⟩, ⟨2, "Beta", "y", 1⟩] ∧
    (⟨"alp", "all", "date", "asc"⟩ : PostFilters).search ≠ "" ∧
    searchStep ⟨"alp", "all", "date", "asc"⟩
        [⟨1, "Alpha", "x", 1⟩, ⟨2, "Beta", "y", 1⟩] =
      [⟨1, "Alpha", "x", 1⟩] := by
  refine ⟨rfl, ?_, by decide, ?_⟩
  · exact (selectFilteredPosts_search_spec
      [⟨1, "Alpha", "x", 1⟩, ⟨2, "Beta", "y", 1⟩]
      ⟨"", "all", "title", "asc"⟩).1 rfl
  · have h := (selectFilteredPosts_search_spec
      [⟨1, "Alpha", "x", 1⟩, ⟨2, "Beta", "y", 1⟩]
      ⟨"alp", "all", "date", "asc"⟩).2.1 (by decide)
    rw [h]
    decide

/-- C2: the comparator `selectFilteredPosts` passes to `Array.prototype.sort`
is not a consistent comparison function — on two distinct posts with equal
sort keys it returns -1 in both argument orders (and it can never return 0),
so ECMAScript leaves the resulting order implementation-defined: the code
does not guarantee a stable, deterministic tie-break. -/
theorem postCompare_inconsistent_on_equal_keys :
    sortValOf "title" ⟨1, "Same", "x", 1⟩ =
      sortValOf "title" ⟨2, "Same", "y", 2⟩ ∧
    postCompare ⟨"", "all", "title", "asc"⟩
      ⟨1, "Same", "x", 1⟩ ⟨2, "Same", "y", 2⟩ = -1 ∧
    postCompare ⟨"", "all", "title", "asc"⟩
      ⟨2, "Same", "y", 2⟩ ⟨1, "Same", "x", 1⟩ = -1 ∧
    (⟨1, "Same", "x", 1⟩ : Post) ≠ ⟨2, "Same", "y", 2⟩ ∧
    (∀ (f : PostFilters) (a b : Post), postCompare f a b ≠ 0) := by
  refine ⟨by decide, by decide, by decide, by decide, ?_⟩
  intro f a b
  unfold postCompare
  dsimp only
  split <;> split <;> simp

/-- A 25-post collection with ids 0..24, for concrete pagination instances. -/
def mkPost (n : Nat) : Post :=
  ⟨n, "t", "b", 1⟩

/-- The collection [mkPost 0, ..., mkPost 24]. -/
def posts25 : List Post :=
  (List.range 25).map mkPost

/-- `toNat` commutes with `min` on integers. -/
theorem toNat_min_eq (a b : Int) : (min a b).toNat = min a.toNat b.toNat := by
  rcases le_total a b with h | h
  · rw [min_eq_left h, Nat.min_eq_left (by omega)]
  · rw [min_eq_right h, Nat.min_eq_right (by omega)]

/-- Clamped take-then-drop equals the plain drop-then-take slice. -/
theorem take_min_drop (l : List Post) (a b : Nat) :
    (l.take (min (a + b) l.length)).drop (min a l.length) =
      (l.drop a).take b := by
  by_cases h : a ≤ l.length
  · rw [Nat.min_eq_left h]
    have h2 : l.take (min (a + b) l.length) = l.take (a + b) := by
      by_cases h3 : a + b ≤ l.length
      · rw [Nat.min_eq_left h3]
      · rw [Nat.min_eq_right (by omega), List.take_length,
          List.take_of_length_le (by omega)]
    rw [h2, List.drop_take]
    congr 1
    omega
  · rw [Nat.min_eq_right (by omega)]
    rw [List.drop_eq_nil_of_le (by simp), List.drop_eq_nil_of_le (by omega),
      List.take_nil]

/-- `jsSlice` with a nonnegative start and extent is plain drop-then-take. -/
theorem jsSlice_nonneg (l : List Post) (start size : Int)
    (h0 : 0 ≤ start) (h1 : 0 ≤ size) :
    jsSlice l start (start + size) = (l.drop start.toNat).take size.toNat := by
  simp only [jsSlice]
  rw [if_neg (not_lt.mpr h0),
    if_neg (not_lt.mpr (by omega : (0:Int) ≤ start + size)),
    toNat_min_eq, toNat_min_eq, Int.toNat_add h0 h1]
  simp only [Int.toNat_natCast]
  exact take_min_drop l start.toNat size.toNat

/-- C3: for every collection, page number ≥ 1 and nonnegative page size,
`selectPaginatedPosts` returns exactly the elements from index
`(page - 1) * pageSize` (inclusive) to `(page - 1) * pageSize + pageSize`
(exclusive), and a page whose start lies beyond the collection's end yields
the empty sequence, not an error. -/
theorem selectPaginatedPosts_slice (filtered : List Post) (page size : Int)
    (hp : 1 ≤ page) (hs : 0 ≤ size) :
    selectPaginatedPostsCompute filtered ⟨page, size⟩ =
      (filtered.drop ((page - 1) * size).toNat).take size.toNat ∧
    (filtered.length ≤ ((page - 1) * size).toNat →
      selectPaginatedPostsCompute filtered ⟨page, size⟩ = []) := by
  have hstart : 0 ≤ (page - 1) * size := mul_nonneg (by omega) hs
  have hmain : selectPaginatedPostsCompute filtered ⟨page, size⟩ =
      (filtered.drop ((page - 1) * size).toNat).take size.toNat :=
    jsSlice_nonneg filtered ((page - 1) * size) size hstart hs
  refine ⟨hmain, fun hlen => ?_⟩
  rw [hmain, List.drop_eq_nil_of_le hlen, List.take_nil]

/-- Witness for C3: page 3 with page size 10 on the 25-post collection
returns exactly the five posts with ids 20 through 24, and page 4 returns
the empty sequence. -/
theorem selectPaginatedPosts_slice_witness :
    (1:Int) ≤ 3 ∧ (0:Int) ≤ 10 ∧
    selectPaginatedPostsCompute posts25 ⟨3, 10⟩ =
      (posts25.drop (((3:Int) - 1) * 10).toNat).take (10:Int).toNat ∧
    (selectPaginatedPostsCompute posts25 ⟨3, 10⟩).map Post.id =
      [20, 21, 22, 23, 24] ∧
    selectPaginatedPostsCompute posts25 ⟨4, 10⟩ = [] := by
  refine ⟨by decide, by decide,
    (selectPaginatedPosts_slice posts25 3 10 (by decide) (by decide)).1,
    by decide,
    (selectPaginatedPosts_slice posts25 4 10 (by decide) (by decide)).2
      (by decide)⟩

/-- C4: with a page number below 1 the code neither rejects nor clamps: on
the 25-post collection, page -1 with page size 10 silently returns the ten
posts at indices 5 through 14 — neither an empty sequence nor the first
page — because the negative start and end indices wrap around under
`Array.prototype.slice`. -/
theorem selectPaginatedPosts_negative_page_arbitrary_slice :
    selectPaginatedPostsCompute posts25 ⟨-1, 10⟩ =
      (posts25.drop 5).take 10 ∧
    (selectPaginatedPostsCompute posts25 ⟨-1, 10⟩).map Post.id =
      [5, 6, 7, 8, 9, 10, 11, 12, 13, 14] ∧
    selectPaginatedPostsCompute posts25 ⟨-1, 10⟩ ≠ [] ∧
    selectPaginatedPostsCompute posts25 ⟨-1, 10⟩ ≠ posts25.take 10 := by
  exact ⟨by decide, by decide, by decide, by decide⟩
